import Mathlib

/-!
Shallow embedding of `jira-to-github.py` (class `JiraToGithub`): the issue
extractor (`_add_to_projects` / `extract`), the HTML-entity decoder
(`htmlentitydecode`), the milestone resolver (`milestones`), the migration
driver (`migrate`) and the issue saver (`_save_issue`).

Python dictionaries are association lists preserving insertion order, network
calls are recorded in an explicit call log, the remote service's responses are
oracles (functions from the posted payload to a status code or issue number),
and writes of the pickle cache file are recorded as a list of snapshots.
-/

namespace JiraToGithub

/-- Boolean membership in a list of strings, as used for
`issue['key'] in self.cached_data`. -/
def containsS : List String → String → Bool
  | [], _ => false
  | a :: rest, k => if a = k then true else containsS rest k

/-- Lookup in an insertion-ordered association list, as used for Python
dictionary indexing (`d[k]`) and membership (`k in d`); Python dictionary
keys are unique, so taking the first hit is faithful. -/
def lookupKey {β : Type} : List (String × β) → String → Option β
  | [], _ => none
  | (a, v) :: rest, k => if a = k then some v else lookupKey rest k

/-- Insert-or-replace in an insertion-ordered association list, as used for
Python dictionary assignment (`d[k] = v`): an existing key keeps its
position, a new key is appended at the end. -/
def setEntry {β : Type} : List (String × β) → String → β → List (String × β)
  | [], k, v => [(k, v)]
  | (a, x) :: rest, k, v =>
    if a = k then (a, v) :: rest else (a, x) :: setEntry rest k v

/-- Increment a counter in a `defaultdict(int)` modelled as an association
list: `d[k] += 1` creates the entry with value 1 when absent. -/
def bump : List (String × Nat) → String → List (String × Nat)
  | [], k => [(k, 1)]
  | (a, n) :: rest, k =>
    if a = k then (a, n + 1) :: rest else (a, n) :: bump rest k

/-! ### `htmlentitydecode` (source lines 78-82)

The Python function is
`s.replace(' '*8, '')` followed by
`re.sub('&(%s);' % '|'.join(name2codepoint), lambda m: chr(...), s)`.
The stdlib table `html.entities.name2codepoint` is external to the
repository, so it is a parameter `table : List (String × Nat)` (entity name,
codepoint) here; the regex alternation tries names in table order and the
scan moves left to right over non-overlapping matches.  The recursions are
fuel-indexed with the input length as fuel; every step consumes at least one
character, so the fuel is never exhausted on the reachable arguments. -/

/-- Python `str.replace(pat, rep)` on character lists (every non-overlapping
occurrence, scanning left to right), with fuel. -/
def replF (pat rep : List Char) : Nat → List Char → List Char
  | 0, l => l
  | _ + 1, [] => []
  | f + 1, c :: rest =>
    if pat.isPrefixOf (c :: rest) then
      rep ++ replF pat rep f (List.drop (pat.length - 1) rest)
    else
      c :: replF pat rep f rest

/-- First table entry `(name, cp)` such that `&name;` starts the input, in
table order — the regex alternation `&(name1|name2|...);` tries the
alternatives in that order.  Returns the codepoint and the rest of the input
after the `;`. -/
def findEntity : List (String × Nat) → List Char → Option (Nat × List Char)
  | [], _ => none
  | (name, cp) :: rest, l =>
    if ('&' :: (name.data ++ [';'])).isPrefixOf l then
      some (cp, List.drop (name.data.length + 2) l)
    else
      findEntity rest l

/-- The `re.sub` scan: at each position, replace a recognized `&name;` by
`chr(codepoint)` and continue after it, otherwise keep the character. -/
def subEntitiesF (table : List (String × Nat)) : Nat → List Char → List Char
  | 0, l => l
  | _ + 1, [] => []
  | f + 1, c :: rest =>
    match findEntity table (c :: rest) with
    | some (cp, rem) => Char.ofNat cp :: subEntitiesF table f rem
    | none => c :: subEntitiesF table f rest

/-- Model of `htmlentitydecode` (source lines 78-82): `None` decodes to the
empty string; otherwise 8-space occurrences are removed, then recognized
named entities are decoded. -/
def htmlentitydecode (table : List (String × Nat)) : Option String → String
  | none => ""
  | some s =>
    let t := replF (List.replicate 8 ' ') [] s.data.length s.data
    String.mk (subEntitiesF table t.length t)

/-! Reference definition of the decoder built from the specification's words
("collapse sequences of exactly 8 consecutive spaces to empty, then replace
all recognized named HTML entities with their decoded character; a
null/absent text field decodes to an empty string"), formulated
independently: the space collapse is its own scan and entity recognition
uses `List.find?` over the table. -/

/-- Spec-side space collapse: each occurrence of 8 consecutive spaces is
removed, scanning left to right. -/
def collapse8F : Nat → List Char → List Char
  | 0, l => l
  | f + 1, l =>
    if (List.replicate 8 ' ').isPrefixOf l then collapse8F f (List.drop 8 l)
    else
      match l with
      | [] => []
      | c :: rest => c :: collapse8F f rest

/-- Spec-side entity substitution: at each position the first table entry
whose `&name;` form starts the input is replaced by its decoded character;
positions holding no recognized entity are left unchanged. -/
def specSubF (table : List (String × Nat)) : Nat → List Char → List Char
  | 0, l => l
  | _ + 1, [] => []
  | f + 1, c :: rest =>
    match List.find? (fun p => ('&' :: (p.1.data ++ [';'])).isPrefixOf (c :: rest)) table with
    | some p => Char.ofNat p.2 :: specSubF table f (List.drop (p.1.data.length + 2) (c :: rest))
    | none => c :: specSubF table f rest

/-- The decoder as the specification describes it. -/
def specHtmlDecode (table : List (String × Nat)) : Option String → String
  | none => ""
  | some s =>
    let t := collapse8F s.data.length s.data
    String.mk (specSubF table t.length t)

/-! ### The version pattern (source line 140)

`re.match('^(\d+.){3}\d+$', version.text)`: the dot is unescaped, so it
matches any character except a newline; `$` also matches just before a
trailing newline.  `mgF f k l` decides whether `l` matches `(\d+X){k}\d+`
where `X` is any non-newline character, with fuel `f` (adequate whenever
`f ≥ l.length + 1`). -/

/-- A nonempty run of ASCII digits (`\d+`). -/
def isDigitRun (l : List Char) : Bool := !l.isEmpty && l.all Char.isDigit

/-- Matcher for `(\d+X){k}\d+` with `X` any character other than a newline. -/
def mgF : Nat → Nat → List Char → Bool
  | 0, _, _ => false
  | _ + 1, 0, l => isDigitRun l
  | f + 1, k + 1, l =>
    (List.range l.length).any fun i =>
      isDigitRun (l.take (i + 1)) &&
        match l.drop (i + 1) with
        | [] => false
        | c :: rest => decide (c ≠ '\n') && mgF f k rest

/-- Model of the version test `re.match('^(\d+.){3}\d+$', s) is not None`. -/
def reMatchVersion (s : String) : Bool :=
  mgF (s.data.length + 1) 3 s.data ||
    match s.data.getLast? with
    | some c => decide (c = '\n') && mgF s.data.length 3 s.data.dropLast
    | none => false

/-- Split a character list at literal dots (used only to state the claim's
"four runs of digits separated by literal dots" pattern). -/
def splitDots : List Char → List (List Char)
  | [] => [[]]
  | c :: rest =>
    let r := splitDots rest
    if c = '.' then [] :: r
    else
      match r with
      | [] => [[c]]
      | h :: t => (c :: h) :: t

/-- The pattern the claim describes: exactly four runs of digits separated
by literal dots. -/
def strictDotted (s : String) : Bool :=
  match splitDots s.data with
  | [a, b, c, d] => isDigitRun a && isDigitRun b && isDigitRun c && isDigitRun d
  | _ => false

/-- Declarative reading of `(\d+X){k}\d+` with `X` any non-newline
character: what the source's version regex actually accepts. -/
inductive GroupMatch : Nat → List Char → Prop
  | last (l : List Char) : isDigitRun l = true → GroupMatch 0 l
  | step (d : List Char) (c : Char) (rest : List Char) (k : Nat) :
      isDigitRun d = true → c ≠ '\n' → GroupMatch k rest →
      GroupMatch (k + 1) (d ++ c :: rest)

/-! ### The extractor (source lines 87-168)

One XML `item` element, with each optional source field already reduced to
the value the Python attribute access yields: an `AttributeError` on a
missing field corresponds to `none` (respectively `[]` for the repeated
`version`, `labels/label` and `comments/comment` elements, over which a
missing parent makes the loop body run zero times).  A comment carries its
`author` and `created` attributes and its possibly-null text. -/
structure Item where
  projectKey : Option String
  title : String
  type : String
  key : String
  reporterUsername : String
  created : String
  resolved : Option String
  description : Option String
  status : String
  fixVersion : Option String
  component : Option String
  versions : List String
  priority : Option String
  labels : List String
  comments : List (String × String × Option String)
deriving DecidableEq, Repr

/-- The issue dictionary built by `_add_to_projects`; `milestone_name` is
the transient field, present exactly when the item had a `fixVersion`. -/
structure Issue where
  title : String
  type : String
  key : String
  body : String
  labels : List String
  comments : List String
  milestone_name : Option String
deriving DecidableEq, Repr

/-- One project entry: the three `defaultdict(int)` histograms and the issue
list. -/
structure Project where
  Milestones : List (String × Nat)
  Components : List (String × Nat)
  Labels : List (String × Nat)
  Issues : List Issue
deriving DecidableEq, Repr

def emptyProject : Project :=
  { Milestones := [], Components := [], Labels := [], Issues := [] }

/-- Source lines 97-100: the item's `project` attribute `key` when present,
otherwise `item.key.text.split('-')[0]`. -/
def derivedKey (item : Item) : String :=
  match item.projectKey with
  | some k => k
  | none => String.mk (item.key.data.takeWhile fun c => !(c = '-'))

def optLabel : Option String → List String
  | some s => [s]
  | none => []

/-- The issue dictionary appended for an item (source lines 115-168, issue
fields only): labels accumulate status, type, component, regex-matching
versions, priority and explicit labels, in source order; comments and body
are synthesized with the author/reporter metadata markup and entity
decoding. -/
def builtIssue (table : List (String × Nat)) (item : Item) : Issue :=
  { title := item.title,
    type := item.type,
    key := item.key,
    body := "<b><i>[reporter=\"" ++ item.reporterUsername ++ "\", created=\""
      ++ item.created ++ "\""
      ++ (match item.resolved with
          | some r => ", resolved=\"" ++ r ++ "\""
          | none => "")
      ++ "]</i></b>\n" ++ htmlentitydecode table item.description,
    labels := [item.status, item.type] ++ optLabel item.component
      ++ item.versions.filter reMatchVersion ++ optLabel item.priority
      ++ item.labels,
    comments := item.comments.map fun c =>
      "<b><i>[author=\"" ++ c.1 ++ "\", created=\"" ++ c.2.1 ++ "\"]</i></b>\n"
        ++ htmlentitydecode table c.2.2,
    milestone_name := item.fixVersion }

/-- Milestone histogram update for an item (source line 126). -/
def milestonesAfter (ms : List (String × Nat)) (item : Item) : List (String × Nat) :=
  match item.fixVersion with
  | some fv => bump ms fv
  | none => ms

/-- Component histogram update for an item (source line 133). -/
def componentsAfter (cs : List (String × Nat)) (item : Item) : List (String × Nat) :=
  match item.component with
  | some comp => bump cs comp
  | none => cs

/-- Label histogram update for an item (source lines 138-150): matching
versions, then priority, then explicit labels. -/
def labelsAfter (ls : List (String × Nat)) (item : Item) : List (String × Nat) :=
  let l1 := (item.versions.filter reMatchVersion).foldl bump ls
  let l2 := match item.priority with
    | some pr => bump l1 pr
    | none => l1
  item.labels.foldl bump l2

/-- Model of `_add_to_projects` (source lines 96-168).  The source first
derives `proj` from the item, but then reads and writes only the entry at
the configured key `self.jira_project`; when `proj` is not a key of the
projects dictionary, the entry at the configured key is reassigned to a
fresh empty model first.  The histogram bumps and the issue-label appends
are interleaved in the source but touch disjoint state, so they are grouped
here.  (Reading the configured entry uses `emptyProject` as default; in the
source that entry always exists at this point because extraction starts
from an empty dictionary and the reset branch creates it.) -/
def addToProjects (table : List (String × Nat)) (jp : String)
    (projects : List (String × Project)) (item : Item) : List (String × Project) :=
  let projects1 :=
    if (lookupKey projects (derivedKey item)).isNone then
      setEntry projects jp emptyProject
    else projects
  let p0 := (lookupKey projects1 jp).getD emptyProject
  setEntry projects1 jp
    { Milestones := milestonesAfter p0.Milestones item,
      Components := componentsAfter p0.Components item,
      Labels := labelsAfter p0.Labels item,
      Issues := p0.Issues ++ [builtIssue table item] }

/-- Model of `extract` (source lines 87-91): fold `_add_to_projects` over
the document's items, starting from the empty projects dictionary of
`__init__`. -/
def extract (table : List (String × Nat)) (jp : String) (items : List Item) :
    List (String × Project) :=
  items.foldl (addToProjects table jp) []

/-! ### The milestone resolver (source lines 193-212)

The GitHub response is reduced to the list of existing milestone titles;
`find_in_milestones` compares the histogram key against each response
title for exact equality.  Keys found keep their count, keys not found are
overwritten with `None`. -/

/-- Model of the loop in `milestones`: each milestone name resolves to its
count when a destination milestone with that exact title exists, and to the
`None` sentinel otherwise. -/
def milestonesResolve (respTitles : List String) (ms : List (String × Nat)) :
    List (String × Option Nat) :=
  ms.map fun p => (p.1, if containsS respTitles p.1 then some p.2 else none)

/-! ### The migration driver (source lines 217-292)

The issue dictionary posted by `_save_issue` (after `comments` was removed
and `milestone` possibly added): `milestone := none` means the key is
absent, `milestone := some v` means `milestone_name` was resolved to the
count `v`. -/
structure MigPayload where
  title : String
  type : String
  key : String
  body : String
  labels : List String
  milestone : Option Nat
deriving DecidableEq, Repr

/-- A network request issued against the GitHub API: an issue-creation POST
(source line 267) or a comment-creation POST (source line 287, carrying the
created issue's number and the comment body). -/
inductive RemoteCall where
  | createIssue : MigPayload → RemoteCall
  | createComment : Nat → String → RemoteCall
deriving DecidableEq, Repr

/-- An entry of the `cant_migrate` list: the source appends the whole issue
dictionary on an unresolved milestone (line 230) but only the title on a
failed creation (line 251). -/
inductive CantEntry where
  | issueEntry : Issue → CantEntry
  | titleEntry : String → CantEntry
deriving DecidableEq, Repr

/-- Outcome of `_save_issue`: the truthiness of the returned value (`False`
on a failed creation; `True` in dry-run; the implicit `None` after the
comment loop is not `False` either, so it counts as a success outcome),
the in-memory cache, the cache-file writes performed, and the network calls
made. -/
structure SaveResult where
  ok : Bool
  cache : List String
  writes : List (List String)
  calls : List RemoteCall
deriving DecidableEq, Repr

/-- Outcome of `migrate`: final in-memory cache, cache-file writes, the
`cant_migrate` list, the network calls, and the arguments of the
`bar.update` progress calls, all in order. -/
structure MigrateResult where
  cache : List String
  writes : List (List String)
  cant : List CantEntry
  calls : List RemoteCall
  bars : List Nat
deriving DecidableEq, Repr

/-- The run configuration and the remote service's behavior: the alias
dictionary of `set_aliases_path`, the dry-run flag, the creation status
code and created-issue number as oracles of the posted payload, and the
milestone map as left by `milestones`. -/
structure Env where
  aliases : List (String × String)
  dry_run : Bool
  createStatus : MigPayload → Nat
  issueNumber : MigPayload → Nat
  milestonesMap : List (String × Option Nat)

/-- The alias-adjusted label list computed by the loop at source lines
236-244: a label aliased to `DELETED` is dropped; a label aliased to a value
other than `same` contributes the alias value and then — the append at line
244 runs for every non-`DELETED` label — the original; every other label is
kept.  The source computes this list into the local `result` and never
assigns it back to `issue['labels']`, so it has no effect on the posted
payload. -/
def aliasResult (aliases : List (String × String)) (labels : List String) :
    List String :=
  labels.foldl
    (fun result label =>
      match lookupKey aliases label with
      | some v =>
        if v = "DELETED" then result
        else if v = "same" then result ++ [label]
        else result ++ [v, label]
      | none => result ++ [label])
    []

/-- Milestone handling at source lines 227-233: `some m` means the issue
proceeds to saving with payload milestone field `m`; `none` means it is
diverted to `cant_migrate`.  An issue without `milestone_name` proceeds
with no milestone field.  Otherwise `Milestones[name]` is read — the map
is a `defaultdict(int)`, so a name absent from it yields the count `0`,
not the `None` sentinel — and `None` diverts. -/
def resolveMilestone (mm : List (String × Option Nat)) (issue : Issue) :
    Option (Option Nat) :=
  match issue.milestone_name with
  | none => some none
  | some name =>
    match (lookupKey mm name).getD (some 0) with
    | none => none
    | some v => some (some v)

/-- The payload posted for an issue, given the resolved milestone field. -/
def payloadOf (issue : Issue) (m : Option Nat) : MigPayload :=
  { title := issue.title, type := issue.type, key := issue.key,
    body := issue.body, labels := issue.labels, milestone := m }

/-- Model of `_save_issue` (source lines 265-292).  Outside dry-run the
creation POST is made and a status other than 201 returns `False` at once —
no cache append, no file write, no comment POST.  Otherwise the key is
appended to the cache and the whole cache is pickled to the file; dry-run
returns `True` there, and the non-dry-run path then POSTs each comment
(fire-and-forget) using the created issue's number. -/
def save_issue (dry : Bool) (createStatus issueNumber : MigPayload → Nat)
    (cache : List String) (p : MigPayload) (comments : List String) : SaveResult :=
  if dry = false ∧ createStatus p ≠ 201 then
    { ok := false, cache := cache, writes := [], calls := [RemoteCall.createIssue p] }
  else
    let cache' := cache ++ [p.key]
    if dry then
      { ok := true, cache := cache', writes := [cache'], calls := [] }
    else
      { ok := true, cache := cache', writes := [cache'],
        calls := RemoteCall.createIssue p
          :: comments.map fun c => RemoteCall.createComment (issueNumber p) c }

/-- The loop of `migrate` (source lines 222-253), with the running index of
`enumerate`.  A cached key updates the bar and skips (lines 223-225); an
unresolved milestone appends the issue to `cant_migrate` and skips with no
bar update (lines 229-231); otherwise — after the source computes and
discards `aliasResult` (lines 235-244) — the comments are detached and
`_save_issue` runs, a `False` outcome appending the title to `cant_migrate`
(lines 250-251), and the bar is updated (line 253). -/
def migrateLoop (env : Env) : Nat → List String → List Issue → MigrateResult
  | _, cache, [] =>
    { cache := cache, writes := [], cant := [], calls := [], bars := [] }
  | index, cache, issue :: rest =>
    if containsS cache issue.key then
      let r := migrateLoop env (index + 1) cache rest
      { r with bars := index :: r.bars }
    else
      match resolveMilestone env.milestonesMap issue with
      | none =>
        let r := migrateLoop env (index + 1) cache rest
        { r with cant := CantEntry.issueEntry issue :: r.cant }
      | some mfield =>
        let p := payloadOf issue mfield
        let s := save_issue env.dry_run env.createStatus env.issueNumber cache p
          issue.comments
        let r := migrateLoop env (index + 1) s.cache rest
        { cache := r.cache,
          writes := s.writes ++ r.writes,
          cant := (if s.ok then [] else [CantEntry.titleEntry issue.title]) ++ r.cant,
          calls := s.calls ++ r.calls,
          bars := index :: r.bars }

/-- Model of `migrate` (source lines 217-254): run the loop from index 0,
then issue the final `bar.update(len(...))` (line 254). -/
def migrate (env : Env) (cache : List String) (issues : List Issue) :
    MigrateResult :=
  let r := migrateLoop env 0 cache issues
  { r with bars := r.bars ++ [issues.length] }

/-- Does the `cant_migrate` list record a failed creation (a title entry)? -/
def hasFailure (l : List CantEntry) : Bool :=
  l.any fun e =>
    match e with
    | CantEntry.titleEntry _ => true
    | CantEntry.issueEntry _ => false

/-- Number of `cant_migrate` entries that are whole issues, i.e. issues
diverted for an unresolved milestone. -/
def divertedCount (l : List CantEntry) : Nat :=
  l.countP fun e =>
    match e with
    | CantEntry.issueEntry _ => true
    | CantEntry.titleEntry _ => false

/-- Number of issue-creation requests in a call log. -/
def createCount (l : List RemoteCall) : Nat :=
  l.countP fun e =>
    match e with
    | RemoteCall.createIssue _ => true
    | RemoteCall.createComment _ _ => false

/-- What the source's version regex accepts, read declaratively: either the
whole string is four digit runs separated by three arbitrary non-newline
characters, or the same holds of the string minus one trailing newline
(which `$` tolerates). -/
def VersionPat (s : String) : Prop :=
  GroupMatch 3 s.data ∨ ∃ l, s.data = l ++ ['\n'] ∧ GroupMatch 3 l

/-! ### Concrete instances used by the closed counterexample, bug and
witness theorems below. -/

/-- Issue used by the claim-C1 scenario: the spec's alias example,
labels `["bug", "feature", "other"]`. -/
def c1issue : Issue :=
  { title := "T", type := "Bug", key := "P-1", body := "b",
    labels := ["bug", "feature", "other"], comments := [],
    milestone_name := none }

/-- Environment for the claim-C1 scenario: the spec's alias mapping, a
remote that accepts every creation. -/
def c1env : Env :=
  { aliases := [("bug", "DELETED"), ("feature", "enhancement")],
    dry_run := false, createStatus := fun _ => 201,
    issueNumber := fun _ => 7, milestonesMap := [] }

/-- Environment whose remote rejects every creation with status 500. -/
def c3env : Env :=
  { aliases := [], dry_run := false, createStatus := fun _ => 500,
    issueNumber := fun _ => 0, milestonesMap := [] }

/-- Issue with no milestone, used by the failing-remote scenarios. -/
def c3issue : Issue :=
  { title := "T3", type := "Bug", key := "P-3", body := "b",
    labels := [], comments := [], milestone_name := none }

/-- Environment that accepts every creation; milestone `v9` is unresolved
(`None` sentinel). -/
def c5env : Env :=
  { aliases := [], dry_run := false, createStatus := fun _ => 201,
    issueNumber := fun _ => 0, milestonesMap := [("v9", none)] }

/-- Issue referencing the unresolved milestone `v9`. -/
def c5issue : Issue :=
  { title := "T5", type := "Bug", key := "P-5", body := "b",
    labels := [], comments := [], milestone_name := some "v9" }

/-- Item whose only optional field is a `version` element `1234567`: seven
digits, no dots. -/
def c6item : Item :=
  { projectKey := none, title := "T6", type := "Bug", key := "GH-1",
    reporterUsername := "u", created := "c", resolved := none,
    description := none, status := "Open", fixVersion := none,
    component := none, versions := ["1234567"], priority := none,
    labels := [], comments := [] }

/-- Item whose own project key `OTHER` differs from the configured one. -/
def c2item : Item :=
  { projectKey := some "OTHER", title := "T2", type := "Task", key := "OTHER-9",
    reporterUsername := "u", created := "c", resolved := none,
    description := none, status := "Open", fixVersion := none,
    component := none, versions := [], priority := none,
    labels := [], comments := [] }

/-- Environment whose remote accepts every creation with status 201. -/
def c3okenv : Env :=
  { aliases := [], dry_run := false, createStatus := fun _ => 201,
    issueNumber := fun _ => 1, milestonesMap := [] }

/-- Environment whose remote rejects every creation with status 400. -/
def c4env : Env :=
  { aliases := [], dry_run := false, createStatus := fun _ => 400,
    issueNumber := fun _ => 1, milestonesMap := [] }

/-- Issue with one comment and no milestone. -/
def c4issue : Issue :=
  { title := "T4", type := "Bug", key := "P-4", body := "b", labels := [],
    comments := ["first comment"], milestone_name := none }

/-- Dry-run environment whose remote would reject every creation. -/
def c8env : Env :=
  { aliases := [], dry_run := true, createStatus := fun _ => 500,
    issueNumber := fun _ => 1, milestonesMap := [] }

/-- Issue with no milestone and no comments. -/
def c8issue : Issue :=
  { title := "T8", type := "Bug", key := "P-8", body := "b", labels := [],
    comments := [], milestone_name := none }

/-- Environment in which milestone `v9` carries the `None` sentinel. -/
def c9env : Env :=
  { aliases := [], dry_run := false, createStatus := fun _ => 201,
    issueNumber := fun _ => 1, milestonesMap := [("v9", none)] }

/-- Issue referencing the unresolved milestone `v9`. -/
def c9issue : Issue :=
  { title := "T9", type := "Bug", key := "P-9", body := "b", labels := [],
    comments := [], milestone_name := some "v9" }

/-- Dry-run environment. -/
def c10env : Env :=
  { aliases := [], dry_run := true, createStatus := fun _ => 500,
    issueNumber := fun _ => 1, milestonesMap := [] }

/-- Issue with comments, no milestone. -/
def c10issue : Issue :=
  { title := "TX", type := "Bug", key := "P-10", body := "b", labels := [],
    comments := ["c1", "c2"], milestone_name := none }

/-! ## Helper lemmas -/

theorem containsS_iff (l : List String) (k : String) :
    containsS l k = true ↔ k ∈ l := by
  induction l with
  | nil => simp [containsS]
  | cons a rest ih =>
    by_cases h : a = k
    · subst h; simp [containsS]
    · simp [containsS, h, ih, Ne.symm h]

theorem containsS_append_left {a : List String} {k : String} (b : List String)
    (h : containsS a k = true) : containsS (a ++ b) k = true := by
  rw [containsS_iff] at h ⊢
  exact List.mem_append_left b h

theorem lookupKey_setEntry_self {β : Type} (l : List (String × β)) (k : String)
    (v : β) : lookupKey (setEntry l k v) k = some v := by
  induction l with
  | nil => simp [setEntry, lookupKey]
  | cons hd tl ih =>
    obtain ⟨a, x⟩ := hd
    by_cases h : a = k <;> simp [setEntry, lookupKey, h, ih]

theorem lookupKey_setEntry_ne {β : Type} (l : List (String × β)) (k k' : String)
    (v : β) (h : k' ≠ k) : lookupKey (setEntry l k v) k' = lookupKey l k' := by
  induction l with
  | nil => simp [setEntry, lookupKey, Ne.symm h]
  | cons hd tl ih =>
    obtain ⟨a, x⟩ := hd
    by_cases ha : a = k
    · subst ha
      simp [setEntry, lookupKey, Ne.symm h]
    · simp [setEntry, lookupKey, ha, ih]

theorem lookupKey_milestonesResolve (respTitles : List String)
    (ms : List (String × Nat)) (name : String) :
    lookupKey (milestonesResolve respTitles ms) name =
      (lookupKey ms name).map
        fun cnt => if containsS respTitles name then some cnt else none := by
  induction ms with
  | nil => rfl
  | cons hd tl ih =>
    obtain ⟨a, n⟩ := hd
    by_cases h : a = name
    · subst h; simp [milestonesResolve, lookupKey]
    · simpa [milestonesResolve, lookupKey, h] using ih

/-! Lemmas characterizing `_save_issue` by the three reachable branches. -/

theorem save_issue_dry (createStatus issueNumber : MigPayload → Nat)
    (cache : List String) (p : MigPayload) (comments : List String) :
    save_issue true createStatus issueNumber cache p comments =
      { ok := true, cache := cache ++ [p.key], writes := [cache ++ [p.key]],
        calls := [] } := by
  simp [save_issue]

theorem save_issue_fail (createStatus issueNumber : MigPayload → Nat)
    (cache : List String) (p : MigPayload) (comments : List String)
    (h : createStatus p ≠ 201) :
    save_issue false createStatus issueNumber cache p comments =
      { ok := false, cache := cache, writes := [],
        calls := [RemoteCall.createIssue p] } := by
  simp [save_issue, h]

theorem save_issue_created (createStatus issueNumber : MigPayload → Nat)
    (cache : List String) (p : MigPayload) (comments : List String)
    (h : createStatus p = 201) :
    save_issue false createStatus issueNumber cache p comments =
      { ok := true, cache := cache ++ [p.key], writes := [cache ++ [p.key]],
        calls := RemoteCall.createIssue p
          :: comments.map fun c => RemoteCall.createComment (issueNumber p) c } := by
  simp [save_issue, h]

theorem save_issue_ok_cache (dry : Bool) (createStatus issueNumber : MigPayload → Nat)
    (cache : List String) (p : MigPayload) (comments : List String)
    (h : (save_issue dry createStatus issueNumber cache p comments).ok = true) :
    (save_issue dry createStatus issueNumber cache p comments).cache
      = cache ++ [p.key] := by
  cases dry with
  | true => rw [save_issue_dry]
  | false =>
    by_cases hs : createStatus p = 201
    · rw [save_issue_created _ _ _ _ _ hs]
    · rw [save_issue_fail _ _ _ _ _ hs] at h
      exact absurd h (by simp)

theorem save_issue_ok_iff (dry : Bool) (createStatus issueNumber : MigPayload → Nat)
    (cache : List String) (p : MigPayload) (comments : List String) :
    (save_issue dry createStatus issueNumber cache p comments).ok = true
      ↔ (dry = true ∨ createStatus p = 201) := by
  cases dry with
  | true => rw [save_issue_dry]; simp
  | false =>
    by_cases hs : createStatus p = 201
    · rw [save_issue_created _ _ _ _ _ hs]; simp [hs]
    · rw [save_issue_fail _ _ _ _ _ hs]; simp [hs]

theorem save_issue_cache_ext (dry : Bool) (createStatus issueNumber : MigPayload → Nat)
    (cache : List String) (p : MigPayload) (comments : List String) :
    ∃ ext, (save_issue dry createStatus issueNumber cache p comments).cache
      = cache ++ ext := by
  cases dry with
  | true => rw [save_issue_dry]; exact ⟨[p.key], rfl⟩
  | false =>
    by_cases hs : createStatus p = 201
    · rw [save_issue_created _ _ _ _ _ hs]; exact ⟨[p.key], rfl⟩
    · rw [save_issue_fail _ _ _ _ _ hs]; exact ⟨[], by simp⟩

theorem migrateLoop_cache_ext (env : Env) :
    ∀ (issues : List Issue) (idx : Nat) (cache : List String),
      ∃ ext, (migrateLoop env idx cache issues).cache = cache ++ ext := by
  intro issues
  induction issues with
  | nil => intro idx cache; exact ⟨[], by simp [migrateLoop]⟩
  | cons issue rest ih =>
    intro idx cache
    by_cases hc : containsS cache issue.key
    · simpa [migrateLoop, hc] using ih (idx + 1) cache
    · cases hm : resolveMilestone env.milestonesMap issue with
      | none => simpa [migrateLoop, hc, hm] using ih (idx + 1) cache
      | some mfield =>
        obtain ⟨e1, he1⟩ := save_issue_cache_ext env.dry_run env.createStatus
          env.issueNumber cache (payloadOf issue mfield) issue.comments
        obtain ⟨e2, he2⟩ := ih (idx + 1)
          (save_issue env.dry_run env.createStatus env.issueNumber cache
            (payloadOf issue mfield) issue.comments).cache
        refine ⟨e1 ++ e2, ?_⟩
        rw [he1] at he2
        simp only [migrateLoop, hc, hm]
        rw [he1, he2]
        simp [List.append_assoc]

/-! Lemmas relating the code-side and spec-side decoder scans. -/

theorem replF_eq_collapse8F :
    ∀ (f : Nat) (l : List Char),
      replF (List.replicate 8 ' ') [] f l = collapse8F f l := by
  intro f
  induction f with
  | zero => intro l; rfl
  | succ f ih =>
    intro l
    cases l with
    | nil =>
      have : ¬ (List.replicate 8 ' ').isPrefixOf ([] : List Char) := by decide
      simp [replF, collapse8F, this]
    | cons c rest =>
      have hd : List.drop 8 (c :: rest) = List.drop 7 rest := rfl
      have ih' : ∀ l, replF [' ', ' ', ' ', ' ', ' ', ' ', ' ', ' '] [] f l
          = collapse8F f l := ih
      simp only [replF, collapse8F, hd, List.isPrefixOf_cons₂_self,
        List.nil_append]
      split <;> simp [ih']

theorem findEntity_eq_find? (table : List (String × Nat)) (l : List Char) :
    findEntity table l =
      (List.find? (fun p => ('&' :: (p.1.data ++ [';'])).isPrefixOf l) table).map
        fun p => (p.2, List.drop (p.1.data.length + 2) l) := by
  induction table with
  | nil => rfl
  | cons hd tl ih =>
    obtain ⟨name, cp⟩ := hd
    by_cases h : ('&' :: (name.data ++ [';'])).isPrefixOf l
    · simp [findEntity, List.find?, h]
    · simp [findEntity, List.find?, h, ih]

theorem subEntitiesF_eq_specSubF (table : List (String × Nat)) :
    ∀ (f : Nat) (l : List Char), subEntitiesF table f l = specSubF table f l := by
  intro f
  induction f with
  | zero => intro l; rfl
  | succ f ih =>
    intro l
    cases l with
    | nil => rfl
    | cons c rest =>
      simp only [subEntitiesF, specSubF]
      rw [findEntity_eq_find?]
      cases h : List.find?
          (fun p => ('&' :: (p.1.data ++ [';'])).isPrefixOf (c :: rest)) table with
      | none => simp [ih]
      | some p => simp [ih]

/-! Lemmas relating the executable matcher `mgF` to the declarative
`GroupMatch` pattern. -/

theorem isDigitRun_ne_nil {l : List Char} (h : isDigitRun l = true) : l ≠ [] := by
  intro hl
  subst hl
  simp [isDigitRun] at h

theorem mgF_sound : ∀ (f k : Nat) (l : List Char),
    mgF f k l = true → GroupMatch k l := by
  intro f
  induction f with
  | zero => intro k l h; simp [mgF] at h
  | succ f ih =>
    intro k l h
    cases k with
    | zero => exact GroupMatch.last l h
    | succ k =>
      simp only [mgF, List.any_eq_true, List.mem_range] at h
      obtain ⟨i, _, hcond⟩ := h
      cases hd : l.drop (i + 1) with
      | nil => rw [hd] at hcond; simp at hcond
      | cons c rest =>
        rw [hd] at hcond
        simp only [Bool.and_eq_true, decide_eq_true_eq] at hcond
        obtain ⟨hdig, hc, hrec⟩ := hcond
        have hl : l = l.take (i + 1) ++ c :: rest := by
          rw [← hd]
          exact (List.take_append_drop (i + 1) l).symm
        rw [hl]
        exact GroupMatch.step _ c rest k hdig hc (ih k rest hrec)

theorem mgF_complete : ∀ (k : Nat) (l : List Char), GroupMatch k l →
    ∀ f, l.length + 1 ≤ f → mgF f k l = true := by
  intro k l h
  induction h with
  | last l hl =>
    intro f hf
    match f, hf with
    | f + 1, _ => simpa [mgF] using hl
  | step d c rest k hd hc _ ih =>
    intro f hf
    match f, hf with
    | f + 1, hf =>
      have hd1 : 1 ≤ d.length := by
        cases hdn : d with
        | nil => exact absurd hdn (isDigitRun_ne_nil hd)
        | cons x xs => simp [hdn]
      simp only [mgF, List.any_eq_true, List.mem_range]
      refine ⟨d.length - 1, ?_, ?_⟩
      · simp only [List.length_append, List.length_cons]
        omega
      · have htake : (d ++ c :: rest).take (d.length - 1 + 1) = d := by
          rw [Nat.sub_add_cancel hd1]
          exact List.take_left d (c :: rest)
        have hdrop : (d ++ c :: rest).drop (d.length - 1 + 1) = c :: rest := by
          rw [Nat.sub_add_cancel hd1]
          exact List.drop_left d (c :: rest)
        rw [htake, hdrop]
        have hlen : rest.length + 1 ≤ f := by
          simp only [List.length_append, List.length_cons] at hf
          omega
        simp [hd, hc, ih f hlen]

theorem reMatchVersion_iff_versionPat (s : String) :
    reMatchVersion s = true ↔ VersionPat s := by
  constructor
  · intro h
    simp only [reMatchVersion, Bool.or_eq_true] at h
    rcases h with h | h
    · exact Or.inl (mgF_sound _ _ _ h)
    · cases hg : s.data.getLast? with
      | none => rw [hg] at h; simp at h
      | some c =>
        rw [hg] at h
        simp only [Bool.and_eq_true, decide_eq_true_eq] at h
        obtain ⟨hc, hm⟩ := h
        subst hc
        have hne : s.data ≠ [] := by
          intro hnil
          rw [hnil] at hg
          simp at hg
        refine Or.inr ⟨s.data.dropLast, ?_, mgF_sound _ _ _ hm⟩
        have hsplit := List.dropLast_append_getLast hne
        rw [List.getLast?_eq_getLast s.data hne] at hg
        rw [Option.some_inj.mp hg] at hsplit
        exact hsplit.symm
  · intro h
    simp only [reMatchVersion, Bool.or_eq_true]
    rcases h with h | ⟨l, hl, h⟩
    · exact Or.inl (mgF_complete _ _ h _ (Nat.le_refl _))
    · right
      rw [hl, List.getLast?_concat, List.dropLast_concat]
      have hm : mgF (l.length + 1) 3 l = true :=
        mgF_complete _ _ h _ (Nat.le_refl _)
      simp [hm]

/-! Equation lemmas for the three branches of the migration loop. -/

theorem migrateLoop_skip (env : Env) (idx : Nat) (cache : List String)
    (issue : Issue) (rest : List Issue)
    (hc : containsS cache issue.key = true) :
    migrateLoop env idx cache (issue :: rest) =
      { migrateLoop env (idx + 1) cache rest with
        bars := idx :: (migrateLoop env (idx + 1) cache rest).bars } := by
  simp [migrateLoop, hc]

theorem migrateLoop_divert (env : Env) (idx : Nat) (cache : List String)
    (issue : Issue) (rest : List Issue)
    (hc : containsS cache issue.key = false)
    (hm : resolveMilestone env.milestonesMap issue = none) :
    migrateLoop env idx cache (issue :: rest) =
      { migrateLoop env (idx + 1) cache rest with
        cant := CantEntry.issueEntry issue
          :: (migrateLoop env (idx + 1) cache rest).cant } := by
  simp [migrateLoop, hc, hm]

theorem migrateLoop_save (env : Env) (idx : Nat) (cache : List String)
    (issue : Issue) (rest : List Issue) (mfield : Option Nat)
    (hc : containsS cache issue.key = false)
    (hm : resolveMilestone env.milestonesMap issue = some mfield) :
    migrateLoop env idx cache (issue :: rest) =
      { cache := (migrateLoop env (idx + 1)
          (save_issue env.dry_run env.createStatus env.issueNumber cache
            (payloadOf issue mfield) issue.comments).cache rest).cache,
        writes := (save_issue env.dry_run env.createStatus env.issueNumber cache
            (payloadOf issue mfield) issue.comments).writes
          ++ (migrateLoop env (idx + 1)
            (save_issue env.dry_run env.createStatus env.issueNumber cache
              (payloadOf issue mfield) issue.comments).cache rest).writes,
        cant := (if (save_issue env.dry_run env.createStatus env.issueNumber cache
              (payloadOf issue mfield) issue.comments).ok then []
            else [CantEntry.titleEntry issue.title])
          ++ (migrateLoop env (idx + 1)
            (save_issue env.dry_run env.createStatus env.issueNumber cache
              (payloadOf issue mfield) issue.comments).cache rest).cant,
        calls := (save_issue env.dry_run env.createStatus env.issueNumber cache
            (payloadOf issue mfield) issue.comments).calls
          ++ (migrateLoop env (idx + 1)
            (save_issue env.dry_run env.createStatus env.issueNumber cache
              (payloadOf issue mfield) issue.comments).cache rest).calls,
        bars := idx :: (migrateLoop env (idx + 1)
            (save_issue env.dry_run env.createStatus env.issueNumber cache
              (payloadOf issue mfield) issue.comments).cache rest).bars } := by
  simp [migrateLoop, hc, hm]

/-! Loop-level lemmas behind the idempotence, progress-count, dry-run and
cache-invariant claims. -/

theorem divertedCount_nil : divertedCount [] = 0 := rfl

theorem divertedCount_cons_issue (i : Issue) (l : List CantEntry) :
    divertedCount (CantEntry.issueEntry i :: l) = divertedCount l + 1 := by
  simp [divertedCount]

theorem divertedCount_append (a b : List CantEntry) :
    divertedCount (a ++ b) = divertedCount a + divertedCount b := by
  simp [divertedCount, List.countP_append]

theorem hasFailure_cons_issue (i : Issue) (l : List CantEntry) :
    hasFailure (CantEntry.issueEntry i :: l) = hasFailure l := by
  simp [hasFailure]

theorem hasFailure_cons_title (t : String) (l : List CantEntry) :
    hasFailure (CantEntry.titleEntry t :: l) = true := by
  simp [hasFailure]

theorem hasFailure_append (a b : List CantEntry) :
    hasFailure (a ++ b) = (hasFailure a || hasFailure b) := by
  simp [hasFailure, List.any_append]

theorem migrateLoop_idem (env : Env) :
    ∀ (issues : List Issue) (idx : Nat) (cache : List String) (idx2 : Nat),
      hasFailure (migrateLoop env idx cache issues).cant = false →
      (migrateLoop env idx2 (migrateLoop env idx cache issues).cache issues).calls
        = [] := by
  intro issues
  induction issues with
  | nil => intro idx cache idx2 h; rfl
  | cons issue rest ih =>
    intro idx cache idx2 h
    by_cases hc : containsS cache issue.key = true
    · rw [migrateLoop_skip env idx cache issue rest hc] at h ⊢
      have hco : containsS (migrateLoop env (idx + 1) cache rest).cache
          issue.key = true := by
        obtain ⟨ext, hext⟩ := migrateLoop_cache_ext env rest (idx + 1) cache
        rw [hext]
        exact containsS_append_left ext hc
      rw [migrateLoop_skip env idx2 _ issue rest hco]
      exact ih (idx + 1) cache (idx2 + 1) h
    · have hc' : containsS cache issue.key = false := by
        simpa using hc
      cases hm : resolveMilestone env.milestonesMap issue with
      | none =>
        rw [migrateLoop_divert env idx cache issue rest hc' hm] at h ⊢
        have hcant : hasFailure (migrateLoop env (idx + 1) cache rest).cant
            = false := by
          simpa [hasFailure] using h
        by_cases hc2 : containsS (migrateLoop env (idx + 1) cache rest).cache
            issue.key = true
        · rw [migrateLoop_skip env idx2 _ issue rest hc2]
          exact ih (idx + 1) cache (idx2 + 1) hcant
        · rw [migrateLoop_divert env idx2 _ issue rest (by simpa using hc2) hm]
          exact ih (idx + 1) cache (idx2 + 1) hcant
      | some mfield =>
        rw [migrateLoop_save env idx cache issue rest mfield hc' hm] at h ⊢
        simp only at h ⊢
        have hok : (save_issue env.dry_run env.createStatus env.issueNumber cache
            (payloadOf issue mfield) issue.comments).ok = true := by
          by_contra hnok
          simp only [Bool.not_eq_true] at hnok
          rw [hnok] at h
          simp only [Bool.false_eq_true, if_false, List.singleton_append] at h
          rw [hasFailure_cons_title] at h
          exact absurd h (by simp)
        have hcant : hasFailure (migrateLoop env (idx + 1)
            (save_issue env.dry_run env.createStatus env.issueNumber cache
              (payloadOf issue mfield) issue.comments).cache rest).cant
            = false := by
          rw [hok] at h
          simpa using h
        have hco : containsS (migrateLoop env (idx + 1)
            (save_issue env.dry_run env.createStatus env.issueNumber cache
              (payloadOf issue mfield) issue.comments).cache rest).cache
            issue.key = true := by
          obtain ⟨ext, hext⟩ := migrateLoop_cache_ext env rest (idx + 1)
            (save_issue env.dry_run env.createStatus env.issueNumber cache
              (payloadOf issue mfield) issue.comments).cache
          rw [hext, save_issue_ok_cache _ _ _ _ _ _ hok]
          rw [containsS_iff]
          have hkey : (payloadOf issue mfield).key = issue.key := rfl
          simp [hkey]
        rw [migrateLoop_skip env idx2 _ issue rest hco]
        exact ih (idx + 1) _ (idx2 + 1) hcant

theorem migrateLoop_bars_count (env : Env) :
    ∀ (issues : List Issue) (idx : Nat) (cache : List String),
      (migrateLoop env idx cache issues).bars.length
        + divertedCount (migrateLoop env idx cache issues).cant
        = issues.length := by
  intro issues
  induction issues with
  | nil => intro idx cache; rfl
  | cons issue rest ih =>
    intro idx cache
    by_cases hc : containsS cache issue.key = true
    · rw [migrateLoop_skip env idx cache issue rest hc]
      simp only [List.length_cons, List.length_cons]
      have := ih (idx + 1) cache
      omega
    · have hc' : containsS cache issue.key = false := by simpa using hc
      cases hm : resolveMilestone env.milestonesMap issue with
      | none =>
        rw [migrateLoop_divert env idx cache issue rest hc' hm]
        simp only [divertedCount_cons_issue, List.length_cons]
        have := ih (idx + 1) cache
        omega
      | some mfield =>
        rw [migrateLoop_save env idx cache issue rest mfield hc' hm]
        simp only [divertedCount_append, List.length_cons]
        have := ih (idx + 1) (save_issue env.dry_run env.createStatus
          env.issueNumber cache (payloadOf issue mfield) issue.comments).cache
        have hz : divertedCount
            (if (save_issue env.dry_run env.createStatus env.issueNumber cache
                (payloadOf issue mfield) issue.comments).ok then []
              else [CantEntry.titleEntry issue.title]) = 0 := by
          split <;> simp [divertedCount]
        omega

theorem migrateLoop_dry (env : Env) (hdry : env.dry_run = true) :
    ∀ (issues : List Issue) (idx : Nat) (cache : List String),
      (migrateLoop env idx cache issues).calls = []
        ∧ hasFailure (migrateLoop env idx cache issues).cant = false := by
  intro issues
  induction issues with
  | nil => intro idx cache; exact ⟨rfl, rfl⟩
  | cons issue rest ih =>
    intro idx cache
    by_cases hc : containsS cache issue.key = true
    · rw [migrateLoop_skip env idx cache issue rest hc]
      exact ih (idx + 1) cache
    · have hc' : containsS cache issue.key = false := by simpa using hc
      cases hm : resolveMilestone env.milestonesMap issue with
      | none =>
        rw [migrateLoop_divert env idx cache issue rest hc' hm]
        obtain ⟨h1, h2⟩ := ih (idx + 1) cache
        exact ⟨h1, by simpa [hasFailure] using h2⟩
      | some mfield =>
        rw [migrateLoop_save env idx cache issue rest mfield hc' hm]
        have hsave : save_issue env.dry_run env.createStatus env.issueNumber
            cache (payloadOf issue mfield) issue.comments =
            { ok := true, cache := cache ++ [(payloadOf issue mfield).key],
              writes := [cache ++ [(payloadOf issue mfield).key]],
              calls := [] } := by
          rw [hdry]
          exact save_issue_dry _ _ _ _ _
        rw [hsave]
        obtain ⟨h1, h2⟩ := ih (idx + 1) (cache ++ [(payloadOf issue mfield).key])
        refine ⟨by simpa using h1, ?_⟩
        simpa [hasFailure] using h2

theorem save_issue_not_ok (dry : Bool) (createStatus issueNumber : MigPayload → Nat)
    (cache : List String) (p : MigPayload) (comments : List String)
    (h : (save_issue dry createStatus issueNumber cache p comments).ok = false) :
    save_issue dry createStatus issueNumber cache p comments =
      { ok := false, cache := cache, writes := [],
        calls := [RemoteCall.createIssue p] } := by
  cases dry with
  | true => rw [save_issue_dry] at h; exact absurd h (by simp)
  | false =>
    by_cases hs : createStatus p = 201
    · rw [save_issue_created _ _ _ _ _ hs] at h
      exact absurd h (by simp)
    · exact save_issue_fail _ _ _ _ _ hs

theorem save_issue_cache_mem (dry : Bool) (createStatus issueNumber : MigPayload → Nat)
    (cache : List String) (p : MigPayload) (comments : List String) (k : String)
    (hk : k ∈ (save_issue dry createStatus issueNumber cache p comments).cache) :
    k ∈ cache ∨ (k = p.key ∧ (dry = true ∨ createStatus p = 201)) := by
  by_cases hok : (save_issue dry createStatus issueNumber cache p comments).ok = true
  · rw [save_issue_ok_cache _ _ _ _ _ _ hok] at hk
    rcases List.mem_append.mp hk with h | h
    · exact Or.inl h
    · exact Or.inr ⟨by simpa using h, (save_issue_ok_iff _ _ _ _ _ _).mp hok⟩
  · have hnok : (save_issue dry createStatus issueNumber cache p comments).ok
        = false := by simpa using hok
    rw [save_issue_not_ok _ _ _ _ _ _ hnok] at hk
    exact Or.inl hk

theorem save_issue_writes_mem (dry : Bool) (createStatus issueNumber : MigPayload → Nat)
    (cache : List String) (p : MigPayload) (comments : List String)
    (w : List String)
    (hw : w ∈ (save_issue dry createStatus issueNumber cache p comments).writes) :
    w = cache ++ [p.key] ∧ (dry = true ∨ createStatus p = 201) := by
  by_cases hok : (save_issue dry createStatus issueNumber cache p comments).ok = true
  · have hc := save_issue_ok_cache dry createStatus issueNumber cache p comments hok
    have hw' : (save_issue dry createStatus issueNumber cache p comments).writes
        = [cache ++ [p.key]] := by
      cases dry with
      | true => rw [save_issue_dry]
      | false =>
        rcases (save_issue_ok_iff _ _ _ _ _ _).mp hok with h | h
        · exact absurd h (by simp)
        · rw [save_issue_created _ _ _ _ _ h]
    rw [hw'] at hw
    exact ⟨by simpa using hw, (save_issue_ok_iff _ _ _ _ _ _).mp hok⟩
  · have hnok : (save_issue dry createStatus issueNumber cache p comments).ok
        = false := by simpa using hok
    rw [save_issue_not_ok _ _ _ _ _ _ hnok] at hw
    exact absurd hw (by simp)

theorem migrateLoop_cache_mem (env : Env) :
    ∀ (issues : List Issue) (idx : Nat) (cache : List String) (k : String),
      k ∈ (migrateLoop env idx cache issues).cache →
      k ∈ cache ∨ ∃ i, i ∈ issues ∧ k = i.key ∧ ∃ m,
        resolveMilestone env.milestonesMap i = some m ∧
          (env.dry_run = true ∨ env.createStatus (payloadOf i m) = 201) := by
  intro issues
  induction issues with
  | nil => intro idx cache k hk; exact Or.inl hk
  | cons issue rest ih =>
    intro idx cache k hk
    by_cases hc : containsS cache issue.key = true
    · rw [migrateLoop_skip env idx cache issue rest hc] at hk
      rcases ih (idx + 1) cache k hk with h | ⟨i, hi, hrest⟩
      · exact Or.inl h
      · exact Or.inr ⟨i, List.mem_cons_of_mem _ hi, hrest⟩
    · have hc' : containsS cache issue.key = false := by simpa using hc
      cases hm : resolveMilestone env.milestonesMap issue with
      | none =>
        rw [migrateLoop_divert env idx cache issue rest hc' hm] at hk
        rcases ih (idx + 1) cache k hk with h | ⟨i, hi, hrest⟩
        · exact Or.inl h
        · exact Or.inr ⟨i, List.mem_cons_of_mem _ hi, hrest⟩
      | some mfield =>
        rw [migrateLoop_save env idx cache issue rest mfield hc' hm] at hk
        simp only at hk
        rcases ih (idx + 1) _ k hk with h | ⟨i, hi, hrest⟩
        · rcases save_issue_cache_mem env.dry_run env.createStatus env.issueNumber
            cache (payloadOf issue mfield) issue.comments k h with h1 | ⟨hkey, hsucc⟩
          · exact Or.inl h1
          · exact Or.inr ⟨issue, List.mem_cons_self _ _, hkey, mfield, hm, hsucc⟩
        · exact Or.inr ⟨i, List.mem_cons_of_mem _ hi, hrest⟩

theorem migrateLoop_writes_mem (env : Env) :
    ∀ (issues : List Issue) (idx : Nat) (cache : List String)
      (w : List String) (k : String),
      w ∈ (migrateLoop env idx cache issues).writes → k ∈ w →
      k ∈ cache ∨ ∃ i, i ∈ issues ∧ k = i.key ∧ ∃ m,
        resolveMilestone env.milestonesMap i = some m ∧
          (env.dry_run = true ∨ env.createStatus (payloadOf i m) = 201) := by
  intro issues
  induction issues with
  | nil => intro idx cache w k hw _; exact absurd hw (by simp [migrateLoop])
  | cons issue rest ih =>
    intro idx cache w k hw hkw
    by_cases hc : containsS cache issue.key = true
    · rw [migrateLoop_skip env idx cache issue rest hc] at hw
      rcases ih (idx + 1) cache w k hw hkw with h | ⟨i, hi, hrest⟩
      · exact Or.inl h
      · exact Or.inr ⟨i, List.mem_cons_of_mem _ hi, hrest⟩
    · have hc' : containsS cache issue.key = false := by simpa using hc
      cases hm : resolveMilestone env.milestonesMap issue with
      | none =>
        rw [migrateLoop_divert env idx cache issue rest hc' hm] at hw
        rcases ih (idx + 1) cache w k hw hkw with h | ⟨i, hi, hrest⟩
        · exact Or.inl h
        · exact Or.inr ⟨i, List.mem_cons_of_mem _ hi, hrest⟩
      | some mfield =>
        rw [migrateLoop_save env idx cache issue rest mfield hc' hm] at hw
        simp only at hw
        rcases List.mem_append.mp hw with hws | hwr
        · obtain ⟨hweq, hsucc⟩ := save_issue_writes_mem env.dry_run env.createStatus
            env.issueNumber cache (payloadOf issue mfield) issue.comments w hws
          rw [hweq] at hkw
          rcases List.mem_append.mp hkw with h1 | h2
          · exact Or.inl h1
          · exact Or.inr ⟨issue, List.mem_cons_self _ _, by simpa using h2,
              mfield, hm, hsucc⟩
        · rcases ih (idx + 1) _ w k hwr hkw with h | ⟨i, hi, hrest⟩
          · rcases save_issue_cache_mem env.dry_run env.createStatus env.issueNumber
              cache (payloadOf issue mfield) issue.comments k h with h1 | ⟨hkey, hsucc⟩
            · exact Or.inl h1
            · exact Or.inr ⟨issue, List.mem_cons_self _ _, hkey, mfield, hm, hsucc⟩
          · exact Or.inr ⟨i, List.mem_cons_of_mem _ hi, hrest⟩

/-! ## Claim theorems -/

/-- Claim C1 is right and the code is wrong (code bug): with the spec's own
alias mapping (bug maps to DELETED, feature maps to enhancement) and labels
bug, feature, other, the creation request still posts the original labels —
bug present, enhancement absent — because the alias-adjusted list is
computed into the local variable `result` (source lines 236-244) and never
assigned back to the issue; the adjusted list the loop computes is exactly
the one the claim describes: enhancement, feature (retained quirk),
other. -/
theorem alias_result_discarded :
    (migrate c1env [] [c1issue]).calls =
      [RemoteCall.createIssue
        { title := "T", type := "Bug", key := "P-1", body := "b",
          labels := ["bug", "feature", "other"], milestone := none }]
    ∧ aliasResult c1env.aliases c1issue.labels
      = ["enhancement", "feature", "other"] := by
  exact ⟨rfl, rfl⟩

/-- Claim C2 (confirmed): `_add_to_projects` stores every item under the
configured project key — entries under any other key are untouched and the
configured entry's issue list ends with the item's issue — and whenever the
item's derived project key is not a key of the projects map, the configured
entry is re-initialized to an empty model before the append, discarding all
previously extracted issues and counts. -/
theorem addToProjects_configured_key (table : List (String × Nat)) (jp : String)
    (projects : List (String × Project)) (item : Item) :
    (∀ k, k ≠ jp →
       lookupKey (addToProjects table jp projects item) k = lookupKey projects k)
    ∧ (∃ p, lookupKey (addToProjects table jp projects item) jp = some p ∧
        p.Issues.getLast? = some (builtIssue table item))
    ∧ (lookupKey projects (derivedKey item) = none →
        lookupKey (addToProjects table jp projects item) jp = some
          { Milestones := milestonesAfter [] item,
            Components := componentsAfter [] item,
            Labels := labelsAfter [] item,
            Issues := [builtIssue table item] }) := by
  refine ⟨?_, ?_, ?_⟩
  · intro k hk
    simp only [addToProjects]
    split
    · rw [lookupKey_setEntry_ne _ _ _ _ hk, lookupKey_setEntry_ne _ _ _ _ hk]
    · rw [lookupKey_setEntry_ne _ _ _ _ hk]
  · simp only [addToProjects]
    refine ⟨_, lookupKey_setEntry_self _ _ _, ?_⟩
    simp [List.getLast?_concat]
  · intro h
    simp [addToProjects, h, lookupKey_setEntry_self, emptyProject]

/-- Witness for claim C2 at a concrete input: one prior project entry under
the configured key `GH`, an item whose own project key is `OTHER`. -/
theorem addToProjects_configured_key_witness :
    lookupKey [("GH", emptyProject)] (derivedKey c2item) = none
    ∧ lookupKey (addToProjects [] "GH" [("GH", emptyProject)] c2item) "GH" = some
        { Milestones := milestonesAfter [] c2item,
          Components := componentsAfter [] c2item,
          Labels := labelsAfter [] c2item,
          Issues := [builtIssue [] c2item] } :=
  ⟨rfl, (addToProjects_configured_key [] "GH" [("GH", emptyProject)] c2item).2.2 rfl⟩

/-- Claim C3 as stated is false: against a remote that rejects the creation
(status 500), a first run from the empty cache performs one creation call,
caches nothing, and the second run against the resulting cache performs one
creation call again — not zero. -/
theorem second_run_creates_again :
    createCount (migrate c3env [] [c3issue]).calls = 1
    ∧ createCount
        (migrate c3env (migrate c3env [] [c3issue]).cache [c3issue]).calls = 1 := by
  exact ⟨rfl, rfl⟩

/-- Claim C3 amended: if the first run recorded no failed creation (every
issue reaching the save step returned a success outcome), then running the
driver again over the same issues, starting from the cache the first run
produced, performs zero remote calls — every cached key is skipped before
any remote call. -/
theorem migrate_idempotent_of_no_failures (env : Env) (cache : List String)
    (issues : List Issue)
    (h : hasFailure (migrate env cache issues).cant = false) :
    (migrate env (migrate env cache issues).cache issues).calls = [] := by
  have h' : hasFailure (migrateLoop env 0 cache issues).cant = false := h
  have hmain := migrateLoop_idem env issues 0 cache 0 h'
  simpa [migrate] using hmain

/-- Witness for amended claim C3: a remote accepting every creation; the
second run performs no calls. -/
theorem migrate_idempotent_of_no_failures_witness :
    hasFailure (migrate c3okenv [] [c3issue]).cant = false
    ∧ (migrate c3okenv (migrate c3okenv [] [c3issue]).cache [c3issue]).calls = [] :=
  ⟨rfl, migrate_idempotent_of_no_failures c3okenv [] [c3issue] rfl⟩

/-- Claim C4 (confirmed): a non-dry-run issue whose creation request returns
a status other than 201 has its title appended to the cannot-migrate list;
the in-memory cache is passed on unchanged, no cache-file write happens, and
the only request for that issue is the creation request — no comment
requests. -/
theorem failed_creation_records_title (env : Env) (idx : Nat)
    (cache : List String) (issue : Issue) (rest : List Issue) (mfield : Option Nat)
    (hdry : env.dry_run = false)
    (hc : containsS cache issue.key = false)
    (hm : resolveMilestone env.milestonesMap issue = some mfield)
    (hs : env.createStatus (payloadOf issue mfield) ≠ 201) :
    migrateLoop env idx cache (issue :: rest) =
      { cache := (migrateLoop env (idx + 1) cache rest).cache,
        writes := (migrateLoop env (idx + 1) cache rest).writes,
        cant := CantEntry.titleEntry issue.title
          :: (migrateLoop env (idx + 1) cache rest).cant,
        calls := RemoteCall.createIssue (payloadOf issue mfield)
          :: (migrateLoop env (idx + 1) cache rest).calls,
        bars := idx :: (migrateLoop env (idx + 1) cache rest).bars } := by
  have hsave : save_issue env.dry_run env.createStatus env.issueNumber cache
      (payloadOf issue mfield) issue.comments =
      { ok := false, cache := cache, writes := [],
        calls := [RemoteCall.createIssue (payloadOf issue mfield)] } := by
    rw [hdry]
    exact save_issue_fail _ _ _ _ _ hs
  rw [migrateLoop_save env idx cache issue rest mfield hc hm, hsave]
  simp

/-- Witness for claim C4: remote rejecting with 400; the issue's comment is
never posted, the cache stays empty and unwritten, only the title lands in
the cannot-migrate list. -/
theorem failed_creation_records_title_witness :
    (c4env.dry_run = false ∧ containsS [] c4issue.key = false
      ∧ resolveMilestone c4env.milestonesMap c4issue = some none
      ∧ c4env.createStatus (payloadOf c4issue none) ≠ 201)
    ∧ migrateLoop c4env 0 [] [c4issue] =
        { cache := [], writes := [],
          cant := [CantEntry.titleEntry "T4"],
          calls := [RemoteCall.createIssue (payloadOf c4issue none)],
          bars := [0] } :=
  ⟨⟨rfl, rfl, rfl, by decide⟩,
    failed_creation_records_title c4env 0 [] c4issue [] none rfl rfl rfl (by decide)⟩

/-- Claim C5 as stated is false: an issue diverted for an unresolved
milestone gets no progress update — with a single such issue the only
`bar.update` is the final one with the total count, and index 0 is never
reported — even though the issue was processed (it is in the cannot-migrate
list). -/
theorem no_progress_update_on_divert :
    (migrate c5env [] [c5issue]).bars = [1]
    ∧ ¬ (0 ∈ (migrate c5env [] [c5issue]).bars)
    ∧ (migrate c5env [] [c5issue]).cant = [CantEntry.issueEntry c5issue] := by
  exact ⟨rfl, by decide, rfl⟩

/-- Claim C5 amended: a progress update is issued after every issue except
those diverted for an unresolved milestone (skipped, migrated and failed
issues all get one), and one final update carries the total issue count:
the update list is some in-loop list followed by the total, and its in-loop
length plus the number of diverted issues equals the issue count. -/
theorem progress_updates_count (env : Env) (cache : List String)
    (issues : List Issue) :
    ∃ inner, (migrate env cache issues).bars = inner ++ [issues.length]
      ∧ inner.length + divertedCount (migrate env cache issues).cant
        = issues.length := by
  refine ⟨(migrateLoop env 0 cache issues).bars, ?_, ?_⟩
  · simp [migrate]
  · have hcount := migrateLoop_bars_count env issues 0 cache
    simpa [migrate] using hcount

/-- Claim C6 as stated is false: the version string `1234567` — seven
digits, not four dot-separated runs — is nevertheless added to the
project's Labels counts and to the issue's label list, because the dot in
the source's pattern is unescaped. -/
theorem version_without_dots_added :
    lookupKey (extract [] "GH" [c6item]) "GH" = some
      { Milestones := [], Components := [], Labels := [("1234567", 1)],
        Issues := [{ title := "T6", type := "Bug", key := "GH-1",
                     body := "<b><i>[reporter=\"u\", created=\"c\"]</i></b>\n",
                     labels := ["Open", "Bug", "1234567"], comments := [],
                     milestone_name := none }] }
    ∧ strictDotted "1234567" = false := by
  exact ⟨rfl, rfl⟩

/-- Claim C6 amended: a version element's text is added to the Labels
counts and to the issue's label list iff it matches the source's pattern
`(\d+.){3}\d+` anchored at both ends, in which the unescaped dot accepts
any non-newline character (and `$` tolerates one trailing newline): four
digit runs separated by three arbitrary non-newline characters.  In
particular `1.2.3.4` is added and `1.2` is not, but `1234567` is added
too. -/
theorem version_labels_match_unescaped_regex :
    (∀ (table : List (String × Nat)) (item : Item),
       (builtIssue table item).labels =
         [item.status, item.type] ++ optLabel item.component
           ++ item.versions.filter reMatchVersion
           ++ optLabel item.priority ++ item.labels)
    ∧ (∀ (ls : List (String × Nat)) (item : Item),
       labelsAfter ls item =
         item.labels.foldl bump
           (match item.priority with
             | some pr => bump ((item.versions.filter reMatchVersion).foldl bump ls) pr
             | none => (item.versions.filter reMatchVersion).foldl bump ls))
    ∧ (∀ s, reMatchVersion s = true ↔ VersionPat s)
    ∧ reMatchVersion "1.2.3.4" = true
    ∧ reMatchVersion "1.2" = false
    ∧ reMatchVersion "1234567" = true := by
  refine ⟨fun table item => rfl, fun ls item => rfl,
    reMatchVersion_iff_versionPat, by decide, by decide, by decide⟩

/-- Witness for amended claim C6: `1a2b3c4` matches the source's pattern and
satisfies its declarative reading. -/
theorem version_labels_match_unescaped_regex_witness :
    reMatchVersion "1a2b3c4" = true ∧ VersionPat "1a2b3c4" :=
  ⟨by decide,
    (version_labels_match_unescaped_regex.2.2.1 "1a2b3c4").mp (by decide)⟩

/-- Claim C7 (confirmed): the HTML entity decoding function equals the
reference definition written from the spec: a null input decodes to the
empty string, otherwise occurrences of 8 consecutive spaces are collapsed
to empty and then every recognized named entity is replaced by its decoded
character, unrecognized sequences being left unchanged. -/
theorem htmlentitydecode_eq_spec (table : List (String × Nat))
    (s : Option String) :
    htmlentitydecode table s = specHtmlDecode table s := by
  cases s with
  | none => rfl
  | some s =>
    simp only [htmlentitydecode, specHtmlDecode]
    rw [replF_eq_collapse8F, subEntitiesF_eq_specSubF]

/-- Claim C8 (confirmed): every key of the final in-memory cache, and every
key in every snapshot written to the cache file, either was already in the
cache or belongs to a processed issue whose save returned a success
outcome — dry-run, or a creation request that returned 201. -/
theorem cache_only_success_keys (env : Env) (cache : List String)
    (issues : List Issue) :
    (∀ k, k ∈ (migrate env cache issues).cache →
       k ∈ cache ∨ ∃ i, i ∈ issues ∧ k = i.key ∧ ∃ m,
         resolveMilestone env.milestonesMap i = some m ∧
           (env.dry_run = true ∨ env.createStatus (payloadOf i m) = 201))
    ∧ (∀ w, w ∈ (migrate env cache issues).writes → ∀ k, k ∈ w →
       k ∈ cache ∨ ∃ i, i ∈ issues ∧ k = i.key ∧ ∃ m,
         resolveMilestone env.milestonesMap i = some m ∧
           (env.dry_run = true ∨ env.createStatus (payloadOf i m) = 201)) := by
  constructor
  · intro k hk
    exact migrateLoop_cache_mem env issues 0 cache k (by simpa [migrate] using hk)
  · intro w hw k hk
    exact migrateLoop_writes_mem env issues 0 cache w k
      (by simpa [migrate] using hw) hk

/-- Witness for claim C8: in dry-run the key `P-8` enters the cache, and the
invariant attributes it to the processed issue with a success outcome. -/
theorem cache_only_success_keys_witness :
    "P-8" ∈ (migrate c8env [] [c8issue]).cache
    ∧ ("P-8" ∈ ([] : List String) ∨ ∃ i, i ∈ [c8issue] ∧ "P-8" = i.key ∧ ∃ m,
        resolveMilestone c8env.milestonesMap i = some m ∧
          (c8env.dry_run = true ∨ c8env.createStatus (payloadOf i m) = 201)) :=
  ⟨by decide, (cache_only_success_keys c8env [] [c8issue]).1 "P-8" (by decide)⟩

/-- Claim C9 (confirmed): a non-cached issue whose milestone name resolves
to the `None` sentinel is appended (as a whole issue) to the cannot-migrate
list, no remote call is made for it, the cache and file are untouched, no
progress update is issued for it, and the loop continues with the remaining
issues; and a milestone name counted during extraction whose exact title is
absent from the destination's milestone list is resolved to the `None`
sentinel. -/
theorem unresolved_milestone_diverts (env : Env) (idx : Nat)
    (cache : List String) (issue : Issue) (rest : List Issue)
    (hc : containsS cache issue.key = false)
    (hm : resolveMilestone env.milestonesMap issue = none) :
    (migrateLoop env idx cache (issue :: rest) =
      { cache := (migrateLoop env (idx + 1) cache rest).cache,
        writes := (migrateLoop env (idx + 1) cache rest).writes,
        cant := CantEntry.issueEntry issue
          :: (migrateLoop env (idx + 1) cache rest).cant,
        calls := (migrateLoop env (idx + 1) cache rest).calls,
        bars := (migrateLoop env (idx + 1) cache rest).bars })
    ∧ (∀ (respTitles : List String) (ms : List (String × Nat)) (name : String)
        (cnt : Nat), lookupKey ms name = some cnt →
        containsS respTitles name = false →
        lookupKey (milestonesResolve respTitles ms) name = some none)
    ∧ (∀ name, issue.milestone_name = some name →
        lookupKey env.milestonesMap name = some none →
        resolveMilestone env.milestonesMap issue = none) := by
  refine ⟨?_, ?_, ?_⟩
  · rw [migrateLoop_divert env idx cache issue rest hc hm]
  · intro resp ms name cnt hl hnc
    rw [lookupKey_milestonesResolve, hl]
    simp [hnc]
  · intro name hn hl
    simp [resolveMilestone, hn, hl]

/-- Witness for claim C9: milestone `v9` carries the sentinel; the issue is
diverted with no call, no cache change, no progress update. -/
theorem unresolved_milestone_diverts_witness :
    containsS [] c9issue.key = false
    ∧ resolveMilestone c9env.milestonesMap c9issue = none
    ∧ migrateLoop c9env 0 [] [c9issue] =
        { cache := [], writes := [], cant := [CantEntry.issueEntry c9issue],
          calls := [], bars := [] }
    ∧ lookupKey (milestonesResolve [] [("v9", 3)]) "v9" = some none :=
  ⟨rfl, rfl,
    (unresolved_milestone_diverts c9env 0 [] c9issue [] rfl rfl).1,
    (unresolved_milestone_diverts c9env 0 [] c9issue [] rfl rfl).2.1
      [] [("v9", 3)] "v9" 3 rfl rfl⟩

/-- Claim C10 (confirmed): in dry-run, saving an issue performs no network
request at all — `_save_issue` returns success with the key appended and
the cache persisted and an empty call list — and consequently a dry-run
migration performs zero requests and never records a failed issue. -/
theorem dry_run_no_network (env : Env) (cache : List String)
    (issues : List Issue) (hdry : env.dry_run = true) :
    (∀ (createStatus issueNumber : MigPayload → Nat) (cache' : List String)
       (p : MigPayload) (comments : List String),
       save_issue true createStatus issueNumber cache' p comments =
         { ok := true, cache := cache' ++ [p.key],
           writes := [cache' ++ [p.key]], calls := [] })
    ∧ (migrate env cache issues).calls = []
    ∧ hasFailure (migrate env cache issues).cant = false := by
  refine ⟨fun cs inum c p com => save_issue_dry cs inum c p com, ?_, ?_⟩
  · have hcalls := (migrateLoop_dry env hdry issues 0 cache).1
    simpa [migrate] using hcalls
  · have hcant := (migrateLoop_dry env hdry issues 0 cache).2
    simpa [migrate] using hcant

/-- Witness for claim C10: a dry run over one issue with two comments makes
no request and records no failure. -/
theorem dry_run_no_network_witness :
    c10env.dry_run = true
    ∧ (migrate c10env [] [c10issue]).calls = []
    ∧ hasFailure (migrate c10env [] [c10issue]).cant = false :=
  ⟨rfl, (dry_run_no_network c10env [] [c10issue] rfl).2.1,
    (dry_run_no_network c10env [] [c10issue] rfl).2.2⟩

end JiraToGithub
